import Mathlib

/-!
Verification of go-todo: the request router, the handlers and the in-memory
store.  A shallow embedding of `src/main.go`.

* The package-level variables `todos` and `currentId` become the fields of a
  `Store` that every handler receives and returns.
* `log.Fatalf` prints and then calls `os.Exit(1)`: the statements after it never
  run and the process, with its store, is gone.  That is `Outcome.exit`.
* The `http.ResponseWriter` is modelled by what the handler wrote on it:
  `none` when the handler returned without calling `WriteHeader`, otherwise the
  status code and the value handed to `json.Marshal` for the body.
* `uint64` arithmetic is arithmetic on `Nat` modulo `2 ^ 64`; Go's `int` is the
  64-bit one.
-/

namespace GoTodo

/-! ## Data model -/

/-- A `time.Time` instant.  The handlers only store and copy instants (the two
readings of `time.Now()` and whatever the JSON decoder produced), and every
instant obtained that way is one `json.Marshal` can encode. -/
abbrev Time := Nat

/-- The `Todo` struct, field for field. -/
structure Todo where
  CreatedAt : Time
  UpdatedAt : Time
  ExpiresAt : Time
  Title : String
  Description : String
  IsComplete : Bool
  Id : Nat
  deriving DecidableEq, Repr

/-- The package-level state: `var todos []Todo` and `var currentId uint64`. -/
structure Store where
  todos : List Todo
  currentId : Nat
  deriving DecidableEq, Repr

/-- The state `server` starts from: `todos` is the nil slice and
`currentId = 0`. -/
def Store.empty : Store := ⟨[], 0⟩

/-- The part of `*http.Request` the handlers look at.  `Body` is the result of
`json.NewDecoder(r.Body).Decode(&todo)` on the request body: `none` when
`Decode` returns an error, otherwise the struct it filled in (keys absent from
the body keep their zero value). -/
structure Request where
  Method : String
  Path : String
  Body : Option Todo
  deriving DecidableEq, Repr

/-- What a handler passed to `json.Marshal` and then to `w.Write`. -/
inductive Payload where
  | empty : Payload
  | todo : Todo → Payload
  | todos : List Todo → Payload
  deriving DecidableEq, Repr

/-- A written response: the code given to `w.WriteHeader` and the body. -/
structure Response where
  Code : Nat
  Body : Payload
  deriving DecidableEq, Repr

/-- How one call of a handler ends. -/
inductive Outcome where
  /-- The handler reached `log.Fatalf`: the process exited. -/
  | exit : Outcome
  /-- The handler returned; `resp` is `none` when it never wrote a status. -/
  | returned (resp : Option Response) (store : Store) : Outcome
  deriving DecidableEq, Repr

/-- The two readings of `time.Now()` made by `createTodo` (lines 62 and 63). -/
structure Clock where
  first : Time
  second : Time
  deriving DecidableEq, Repr

def StatusOK : Nat := 200
def StatusCreated : Nat := 201
def StatusBadRequest : Nat := 400
def StatusNotFound : Nat := 404
def StatusInternalServerError : Nat := 500

/-! ## Library functions used by the handlers -/

/-- The width of `uint64`. -/
def uint64Size : Nat := 2 ^ 64

/-- The conversion `uint64(id)` of an `int`. -/
def uint64 (i : Int) : Nat := (i % (uint64Size : Int)).toNat

/-- The value of a run of decimal digits, most significant first. -/
def digitsValue (ds : List Char) : Nat :=
  ds.foldl (fun acc ch => acc * 10 + (ch.toNat - 48)) 0

/-- The function `strconv.Atoi` for a 64-bit `int`: an optional sign, then one or
more decimal digits, the value within `[-2^63, 2^63 - 1]`; `none` stands for a
returned error (syntax or range). -/
def Atoi (s : List Char) : Option Int :=
  let neg := s.head? == some '-'
  let ds := if s.head? == some '-' || s.head? == some '+' then s.tail else s
  if ds.isEmpty then none
  else if !ds.all Char.isDigit then none
  else if neg then
    if digitsValue ds ≤ 2 ^ 63 then some (-(digitsValue ds : Int)) else none
  else
    if digitsValue ds < 2 ^ 63 then some (digitsValue ds : Int) else none

/-- The function `strings.Split(s, "/")` for a one-character separator: the
pieces between the separators, one more than there are separators. -/
def Split (sep : Char) : List Char → List (List Char)
  | [] => [[]]
  | c :: cs =>
    if c = sep then [] :: Split sep cs
    else
      match Split sep cs with
      | [] => [[c]]
      | piece :: rest => (c :: piece) :: rest

/-- The regular expression matching exactly the characters of `s` in order. -/
def literal : List Char → RegularExpression Char
  | [] => 1
  | c :: cs => RegularExpression.char c * literal cs

/-- The class `[0-9]`. -/
def digitClass : RegularExpression Char :=
  RegularExpression.char '0' + RegularExpression.char '1' + RegularExpression.char '2'
    + RegularExpression.char '3' + RegularExpression.char '4' + RegularExpression.char '5'
    + RegularExpression.char '6' + RegularExpression.char '7' + RegularExpression.char '8'
    + RegularExpression.char '9'

/-- The class `[\/]`. -/
def slashClass : RegularExpression Char := RegularExpression.char '/'

/-- The pattern `^\/api\/v1\/todos[\/]*$`. -/
def todosPath : RegularExpression Char :=
  literal "/api/v1/todos".data * RegularExpression.star slashClass

/-- The pattern `^\/api\/v1\/todos\/[0-9]+[\/]*$`. -/
def todosIdPath : RegularExpression Char :=
  literal "/api/v1/todos/".data * (digitClass * RegularExpression.star digitClass)
    * RegularExpression.star slashClass

/-- The method `MatchString` of a pattern anchored with `^` and `$`: the whole
text has to match. -/
def MatchString (re : RegularExpression Char) (path : String) : Bool :=
  re.rmatch path.data

/-! ## Handlers -/

/-- Handler `healthCheck`. -/
def healthCheck (s : Store) (_r : Request) : Outcome :=
  .returned (some ⟨StatusOK, .empty⟩) s

/-- Handler `error404`. -/
def error404 (s : Store) (_r : Request) : Outcome :=
  .returned (some ⟨StatusNotFound, .empty⟩) s

/-- Handler `listTodos`: marshal the whole slice and write it with status 200. -/
def listTodos (s : Store) (_r : Request) : Outcome :=
  .returned (some ⟨StatusOK, .todos s.todos⟩) s

/-- Handler `createTodo`.  A decoding error reaches `log.Fatalf` on line 58.  Otherwise
`err` is nil at line 65, the counter is incremented (lines 71-73), read back
into `todo.Id` (line 75), `IsComplete` is cleared and the record is appended. -/
def createTodo (now : Clock) (s : Store) (r : Request) : Outcome :=
  match r.Body with
  | none => .exit
  | some decoded =>
    let todo := { decoded with CreatedAt := now.first }
    let todo := { todo with UpdatedAt := now.second }
    let currentId := (s.currentId + 1) % uint64Size
    let todo := { todo with Id := currentId }
    let todo := { todo with IsComplete := false }
    let todos := s.todos ++ [todo]
    .returned (some ⟨StatusCreated, .todo todo⟩) ⟨todos, currentId⟩

/-- Handler `getTodoById`: the last piece of the path goes through `strconv.Atoi`; an
error reaches `log.Fatalf` on line 94; otherwise the first record whose `Id`
equals `uint64(id)` is written with status 200, and 404 when the loop ends. -/
def getTodoById (s : Store) (r : Request) : Outcome :=
  let pathSplit := Split '/' r.Path.data
  match Atoi (pathSplit.getLastD []) with
  | none => .exit
  | some id =>
    match s.todos.find? (fun todo => todo.Id == uint64 id) with
    | some todo => .returned (some ⟨StatusOK, .todo todo⟩) s
    | none => .returned (some ⟨StatusNotFound, .empty⟩) s

/-- Method `router.ServeHTTP`: the `switch` on the path, first case that holds, and the
inner switches on the method, which have no default. -/
def ServeHTTP (now : Clock) (s : Store) (r : Request) : Outcome :=
  let path := r.Path
  if path = "/healthz" then
    if r.Method = "GET" then healthCheck s r else .returned none s
  else if MatchString todosPath path then
    if r.Method = "GET" then listTodos s r
    else if r.Method = "POST" then createTodo now s r
    else .returned none s
  else if MatchString todosIdPath path then
    if r.Method = "GET" then getTodoById s r else .returned none s
  else error404 s r

/-! ## Specification-side vocabulary, runs of requests and fixtures -/

/-- The characters `0` to `9`. -/
def decimalDigits : List Char := "0123456789".data

/-- Spec wording: `/api/v1/todos` followed by zero or more slashes. -/
def IsTodosPath (path : String) : Prop :=
  ∃ n : Nat, path.data = "/api/v1/todos".data ++ List.replicate n '/'

/-- Spec wording: `/api/v1/todos/<one or more digits>` followed by zero or more
slashes. -/
def IsTodosIdPath (path : String) : Prop :=
  ∃ (ds : List Char) (n : Nat), ds ≠ [] ∧ (∀ c ∈ ds, c ∈ decimalDigits) ∧
    path.data = "/api/v1/todos/".data ++ ds ++ List.replicate n '/'

/-- The decimal text of `k`, as `strconv` and `fmt` print it. -/
def decimal (k : Nat) : List Char := Nat.toDigits 10 k

/-- Requests handled one after another by `handler`, each with its own clock
readings, the store of one call passed on to the next.  `none` when a call ends
the process; otherwise the responses in order and the final store. -/
def serveAll (handler : Clock → Store → Request → Outcome) :
    Store → List (Clock × Request) → Option (List (Option Response) × Store)
  | s, [] => some ([], s)
  | s, (now, r) :: rest =>
    match handler now s r with
    | .exit => none
    | .returned resp s' =>
      match serveAll handler s' rest with
      | none => none
      | some (resps, s'') => some (resp :: resps, s'')

/-- Three creates in a row; the bodies try to set the id and the completion flag. -/
def threeCreates : List (Clock × Request) :=
  [(⟨10, 11⟩, ⟨"POST", "/api/v1/todos", some ⟨0, 0, 0, "a", "b", false, 0⟩⟩),
   (⟨20, 21⟩, ⟨"POST", "/api/v1/todos/", some ⟨0, 0, 7, "c", "", true, 40⟩⟩),
   (⟨30, 31⟩, ⟨"POST", "/api/v1/todos", some ⟨0, 0, 0, "", "", false, 1⟩⟩)]

/-- The path of the single-item route for id `k` followed by `n` slashes. -/
def itemPath (k n : Nat) : String :=
  ⟨"/api/v1/todos/".data ++ decimal k ++ List.replicate n '/'⟩

/-- The store after one create: a single record with id 1. -/
def oneRecord : Store := ⟨[⟨10, 11, 0, "a", "b", false, 1⟩], 1⟩

/-- A list request and a second create, handled after the first create. -/
def laterRequests : List (Clock × Request) :=
  [(⟨20, 21⟩, ⟨"GET", "/api/v1/todos", none⟩),
   (⟨30, 31⟩, ⟨"POST", "/api/v1/todos/", some ⟨0, 0, 0, "c", "", false, 0⟩⟩)]

/-- The store after the two creates: records with ids 1 and 2. -/
def twoRecords : Store :=
  ⟨[⟨10, 11, 0, "a", "b", false, 1⟩, ⟨30, 31, 0, "c", "", false, 2⟩], 2⟩

/-- A recognised path with a method the router has no case for. -/
def Unhandled (r : Request) : Prop :=
  (r.Path = "/healthz" ∧ r.Method ≠ "GET") ∨
  (IsTodosPath r.Path ∧ r.Method ≠ "GET" ∧ r.Method ≠ "POST") ∨
  (IsTodosIdPath r.Path ∧ r.Method ≠ "GET")

/-- A request the router has a case for and whose handler does not stop at a
`log.Fatalf`: GET on the three routes (on the item route with a last piece that
`strconv.Atoi` accepts), POST on the collection with a decodable body, and any
method on a path no route recognises. -/
def Handled (r : Request) : Prop :=
  (r.Path = "/healthz" ∧ r.Method = "GET") ∨
  (IsTodosPath r.Path ∧ r.Method = "GET") ∨
  (IsTodosPath r.Path ∧ r.Method = "POST" ∧ r.Body.isSome = true) ∨
  (IsTodosIdPath r.Path ∧ r.Method = "GET" ∧
    (Atoi ((Split '/' r.Path.data).getLastD [])).isSome = true) ∨
  (r.Path ≠ "/healthz" ∧ ¬ IsTodosPath r.Path ∧ ¬ IsTodosIdPath r.Path)

/-- The shape of a store reached by handling requests one after another from
the empty store without wrap-around: the stored ids are `1, 2, ..., currentId`
in collection order. -/
def Sequential (s : Store) : Prop :=
  s.todos.map Todo.Id = List.range' 1 s.currentId

/-- Where a running call of `createTodo` stands once the body is decoded and the
timestamps are set: before the locked increment (lines 71-73), before the
unlocked read `todo.Id = currentId` (lines 75-76), before the append (line 78),
or past it. -/
inductive Pc where
  | increment : Pc
  | readId : Pc
  | append : Pc
  | done : Pc
  deriving DecidableEq, Repr

/-- One in-flight call of `createTodo`: its program point and its local `todo`. -/
structure Call where
  pc : Pc
  todo : Todo
  deriving DecidableEq, Repr

/-- The shared store together with the calls being handled concurrently. -/
structure World where
  store : Store
  calls : List Call
  deriving DecidableEq, Repr

/-- A call that has decoded its body and set both timestamps (lines 55-63). -/
def Call.start (now : Clock) (decoded : Todo) : Call :=
  ⟨.increment, { decoded with CreatedAt := now.first, UpdatedAt := now.second }⟩

/-- One atomic step of a call on the shared store.  The increment happens inside
`mu.Lock()` / `mu.Unlock()`; the read of `currentId` and the append happen after
the lock has been released.  The append on line 78, itself an unlocked
read-modify-write of `todos`, is taken as a single step: that only leaves
interleavings out, so every schedule of this model is an execution of the code. -/
def stepCall (st : Store) (c : Call) : Store × Call :=
  match c.pc with
  | .increment => (⟨st.todos, (st.currentId + 1) % uint64Size⟩, { c with pc := .readId })
  | .readId => (st, ⟨.append, { c.todo with Id := st.currentId, IsComplete := false }⟩)
  | .append => (⟨st.todos ++ [c.todo], st.currentId⟩, { c with pc := .done })
  | .done => (st, c)

/-- The scheduler lets call number `i` take its next step. -/
def step (w : World) (i : Nat) : World :=
  match w.calls[i]? with
  | none => w
  | some c => ⟨(stepCall w.store c).1, w.calls.set i (stepCall w.store c).2⟩

/-- An interleaving: the calls take their steps in the order the schedule names
them. -/
def runSchedule (w : World) (schedule : List Nat) : World :=
  schedule.foldl step w

/-- Two creates in flight on the empty store. -/
def twoCreates : World :=
  ⟨Store.empty, [Call.start ⟨10, 11⟩ ⟨0, 0, 0, "a", "", false, 0⟩,
    Call.start ⟨12, 13⟩ ⟨0, 0, 0, "b", "", false, 0⟩]⟩

/-! ## The route patterns, in the words of the specification -/

theorem isDigit_iff_mem (c : Char) : c.isDigit = true ↔ c ∈ decimalDigits := by
  constructor
  · intro h
    simp only [Char.isDigit, Bool.and_eq_true, decide_eq_true_eq] at h
    obtain ⟨h1, h2⟩ := h
    have h1' : 48 ≤ c.toNat := h1
    have h2' : c.toNat ≤ 57 := h2
    have hc : c = Char.ofNat c.toNat := (Char.ofNat_toNat c).symm
    generalize c.toNat = k at *
    subst hc
    interval_cases k <;> decide
  · intro h
    simp only [decimalDigits, List.mem_cons, List.mem_singleton] at h
    simp at h
    rcases h with h | h | h | h | h | h | h | h | h | h <;> subst h <;> decide

theorem literal_rmatch_iff (l x : List Char) : (literal l).rmatch x ↔ x = l := by
  induction l generalizing x with
  | nil => simp [literal]
  | cons c cs ih =>
    simp only [literal, RegularExpression.mul_rmatch_iff, RegularExpression.char_rmatch_iff, ih]
    constructor
    · rintro ⟨t, u, rfl, rfl, rfl⟩; rfl
    · rintro rfl; exact ⟨[c], cs, rfl, rfl, rfl⟩

theorem digitClass_rmatch_iff (x : List Char) :
    digitClass.rmatch x ↔ ∃ c, c ∈ decimalDigits ∧ x = [c] := by
  simp only [digitClass, RegularExpression.add_rmatch_iff, RegularExpression.char_rmatch_iff,
    decimalDigits]
  constructor
  · intro h
    rcases h with ((((((((h | h) | h) | h) | h) | h) | h) | h) | h) | h <;> subst h <;>
      exact ⟨_, by decide, rfl⟩
  · rintro ⟨c, hc, rfl⟩
    simp at hc
    rcases hc with h | h | h | h | h | h | h | h | h | h <;> subst h <;> simp

theorem star_class_rmatch_iff (P : RegularExpression Char) (S : Char → Prop)
    (hP : ∀ x, P.rmatch x ↔ ∃ c, S c ∧ x = [c]) (x : List Char) :
    (RegularExpression.star P).rmatch x ↔ ∀ c ∈ x, S c := by
  rw [RegularExpression.star_rmatch_iff]
  constructor
  · rintro ⟨L, rfl, hL⟩ c hc
    obtain ⟨t, ht, hct⟩ := List.mem_flatten.mp hc
    obtain ⟨d, hd, rfl⟩ := (hP t).mp (hL t ht).2
    simp at hct; subst hct; exact hd
  · intro h
    refine ⟨x.map (fun c => [c]), ?_, ?_⟩
    · clear h
      induction x with
      | nil => rfl
      | cons a as ih => simpa using ih
    · intro t ht
      obtain ⟨c, hc, rfl⟩ := List.mem_map.mp ht
      exact ⟨by simp, (hP [c]).mpr ⟨c, h c hc, rfl⟩⟩

theorem slashes_iff (x : List Char) : (∀ c ∈ x, c = '/') ↔ ∃ n, x = List.replicate n '/' := by
  constructor
  · intro h; exact ⟨x.length, List.eq_replicate_of_mem h⟩
  · rintro ⟨n, rfl⟩ c hc; exact List.eq_of_mem_replicate hc

theorem slashStar_rmatch_iff (x : List Char) :
    (RegularExpression.star slashClass).rmatch x ↔ ∃ n, x = List.replicate n '/' := by
  rw [← slashes_iff]
  refine star_class_rmatch_iff slashClass (fun c => c = '/') ?_ x
  intro y
  rw [slashClass, RegularExpression.char_rmatch_iff]
  constructor
  · rintro rfl; exact ⟨'/', rfl, rfl⟩
  · rintro ⟨c, rfl, rfl⟩; rfl

theorem digitStar_rmatch_iff (x : List Char) :
    (RegularExpression.star digitClass).rmatch x ↔ ∀ c ∈ x, c ∈ decimalDigits :=
  star_class_rmatch_iff digitClass (fun c => c ∈ decimalDigits) digitClass_rmatch_iff x

theorem todosPath_match_iff (path : String) :
    MatchString todosPath path = true ↔ IsTodosPath path := by
  simp only [MatchString, todosPath, RegularExpression.mul_rmatch_iff, literal_rmatch_iff,
    slashStar_rmatch_iff, IsTodosPath]
  constructor
  · rintro ⟨t, u, h, rfl, n, rfl⟩; exact ⟨n, h⟩
  · rintro ⟨n, h⟩; exact ⟨_, _, h, rfl, n, rfl⟩

theorem todosIdPath_match_iff (path : String) :
    MatchString todosIdPath path = true ↔ IsTodosIdPath path := by
  simp only [MatchString, todosIdPath, RegularExpression.mul_rmatch_iff, literal_rmatch_iff,
    slashStar_rmatch_iff, digitStar_rmatch_iff, digitClass_rmatch_iff, IsTodosIdPath]
  constructor
  · rintro ⟨t, u, h, ⟨t1, t2, rfl, rfl, ⟨a, b, rfl, ⟨c, hc, rfl⟩, hb⟩⟩, n, rfl⟩
    refine ⟨c :: b, n, by simp, ?_, by simpa using h⟩
    intro d hd
    rcases List.mem_cons.mp hd with rfl | hd
    · exact hc
    · exact hb d hd
  · rintro ⟨ds, n, hne, hds, h⟩
    obtain ⟨c, b, rfl⟩ := List.exists_cons_of_ne_nil hne
    refine ⟨_, _, h, ⟨_, _, rfl, rfl, ⟨[c], b, rfl, ⟨c, hds c (by simp), rfl⟩, ?_⟩⟩, n, rfl⟩
    intro d hd
    exact hds d (by simp [hd])

/-! ## `strings.Split`, `strconv.Atoi` and decimal text -/

theorem Split_ne_nil (sep : Char) (l : List Char) : Split sep l ≠ [] := by
  induction l with
  | nil => simp [Split]
  | cons c cs ih =>
    unfold Split
    split
    · simp
    · split <;> simp

theorem Split_of_not_mem (sep : Char) (l : List Char) (h : sep ∉ l) : Split sep l = [l] := by
  induction l with
  | nil => rfl
  | cons c cs ih =>
    have hc : c ≠ sep := fun e => h (by simp [e])
    have hcs : sep ∉ cs := fun e => h (by simp [e])
    simp [Split, hc, ih hcs]

theorem Split_append_sep (sep : Char) (pre rest : List Char) :
    Split sep (pre ++ sep :: rest) = Split sep pre ++ Split sep rest := by
  induction pre with
  | nil => simp [Split]
  | cons c cs ih =>
    by_cases hc : c = sep
    · simp [Split, hc, ih]
    · obtain ⟨piece, more, hpm⟩ := List.exists_cons_of_ne_nil (Split_ne_nil sep cs)
      simp [Split, hc, ih, hpm]

theorem getLastD_append_of_ne_nil {α : Type} (a b : List α) (d : α) (hb : b ≠ []) :
    (a ++ b).getLastD d = b.getLastD d := by
  rw [List.getLastD_eq_getLast?, List.getLastD_eq_getLast?, List.getLast?_append_of_ne_nil a hb]

/-- The last piece of a path that ends in `/seg`, `seg` free of slashes, is `seg`. -/
theorem Split_last (pre seg : List Char) (h : '/' ∉ seg) :
    (Split '/' (pre ++ '/' :: seg)).getLastD [] = seg := by
  rw [Split_append_sep, getLastD_append_of_ne_nil _ _ _ (Split_ne_nil _ _),
    Split_of_not_mem _ _ h]
  rfl

/-- The last piece of a path that ends in a slash is empty. -/
theorem Split_last_slash (pre : List Char) :
    (Split '/' (pre ++ ['/'])).getLastD [] = [] := Split_last pre [] (by simp)

theorem digitsValue_append (ds : List Char) (c : Char) :
    digitsValue (ds ++ [c]) = digitsValue ds * 10 + (c.toNat - 48) := by
  simp [digitsValue, List.foldl_append]

theorem digitChar_mem (m : Nat) (h : m < 10) : Nat.digitChar m ∈ decimalDigits := by
  interval_cases m <;> decide

theorem digitChar_value (m : Nat) (h : m < 10) : (Nat.digitChar m).toNat - 48 = m := by
  interval_cases m <;> rfl

theorem toDigitsCore_spec (fuel : Nat) : ∀ (n : Nat) (acc : List Char), n < fuel →
    ∃ ds, Nat.toDigitsCore 10 fuel n acc = ds ++ acc ∧ ds ≠ [] ∧
      (∀ c ∈ ds, c ∈ decimalDigits) ∧ digitsValue ds = n := by
  induction fuel with
  | zero => intro n acc h; omega
  | succ fuel ih =>
    intro n acc h
    have hm : n % 10 < 10 := Nat.mod_lt _ (by decide)
    simp only [Nat.toDigitsCore]
    split
    · rename_i h0
      refine ⟨[Nat.digitChar (n % 10)], rfl, by simp, ?_, ?_⟩
      · intro c hc; simp at hc; subst hc; exact digitChar_mem _ hm
      · have : digitsValue [Nat.digitChar (n % 10)] = (Nat.digitChar (n % 10)).toNat - 48 := by
          simp [digitsValue]
        rw [this, digitChar_value _ hm]; omega
    · rename_i h0
      obtain ⟨ds, hds, _, hmem, hval⟩ := ih (n / 10) (Nat.digitChar (n % 10) :: acc) (by omega)
      refine ⟨ds ++ [Nat.digitChar (n % 10)], by simp [hds], by simp, ?_, ?_⟩
      · intro c hc
        rcases List.mem_append.mp hc with hc | hc
        · exact hmem c hc
        · simp at hc; subst hc; exact digitChar_mem _ hm
      · rw [digitsValue_append, hval, digitChar_value _ hm]; omega

theorem decimal_spec (k : Nat) :
    decimal k ≠ [] ∧ (∀ c ∈ decimal k, c ∈ decimalDigits) ∧ digitsValue (decimal k) = k := by
  obtain ⟨ds, hds, hne, hmem, hval⟩ := toDigitsCore_spec (k + 1) k [] (by omega)
  have : decimal k = ds := by simpa [decimal, Nat.toDigits] using hds
  rw [this]; exact ⟨hne, hmem, hval⟩

theorem Atoi_digits (ds : List Char) (hne : ds ≠ []) (hd : ∀ c ∈ ds, c ∈ decimalDigits) :
    Atoi ds = if digitsValue ds < 2 ^ 63 then some (digitsValue ds : Int) else none := by
  obtain ⟨c, cs, rfl⟩ := List.exists_cons_of_ne_nil hne
  have hc : c ∈ decimalDigits := hd c (by simp)
  have h1 : c ≠ '-' := by rintro rfl; revert hc; decide
  have h2 : c ≠ '+' := by rintro rfl; revert hc; decide
  have hall : (c :: cs).all Char.isDigit = true := by
    rw [List.all_eq_true]; intro x hx; exact (isDigit_iff_mem x).mpr (hd x hx)
  simp only [Atoi, List.head?_cons, List.tail_cons]
  simp [h1, h2, hall, -List.all_cons]

theorem Atoi_decimal (k : Nat) (hk : k < 2 ^ 63) : Atoi (decimal k) = some (k : Int) := by
  obtain ⟨hne, hmem, hval⟩ := decimal_spec k
  rw [Atoi_digits _ hne hmem, hval, if_pos hk]

theorem Atoi_decimal_big (k : Nat) (hk : 2 ^ 63 ≤ k) : Atoi (decimal k) = none := by
  obtain ⟨hne, hmem, hval⟩ := decimal_spec k
  rw [Atoi_digits _ hne hmem, hval, if_neg (by omega)]

theorem Atoi_nil : Atoi [] = none := rfl

theorem uint64_natCast (k : Nat) (hk : k < 2 ^ 64) : uint64 (k : Int) = k := by
  unfold uint64 uint64Size
  have : ((k : Int) % ((2 ^ 64 : Nat) : Int)) = (k : Int) := by
    rw [← Int.natCast_mod, Nat.mod_eq_of_lt hk]
  rw [this]; simp

/-! ## Creating and listing -/

theorem createTodo_decoded (now : Clock) (s : Store) (r : Request) (d : Todo)
    (h : r.Body = some d) :
    ∃ rec : Todo,
      createTodo now s r = .returned (some ⟨201, .todo rec⟩)
        ⟨s.todos ++ [rec], (s.currentId + 1) % 2 ^ 64⟩ ∧
      rec.Id = (s.currentId + 1) % 2 ^ 64 ∧ rec.IsComplete = false ∧
      rec.CreatedAt = now.first ∧ rec.UpdatedAt = now.second ∧
      rec.ExpiresAt = d.ExpiresAt ∧ rec.Title = d.Title ∧ rec.Description = d.Description := by
  refine ⟨⟨now.first, now.second, d.ExpiresAt, d.Title, d.Description, false,
    (s.currentId + 1) % 2 ^ 64⟩, ?_, rfl, rfl, rfl, rfl, rfl, rfl, rfl⟩
  simp [createTodo, h, StatusCreated, uint64Size]

theorem serveAll_create (calls : List (Clock × Request)) :
    ∀ s : Store, (∀ c ∈ calls, c.2.Body.isSome = true) →
      s.currentId + calls.length < 2 ^ 64 →
      ∃ recs : List Todo,
        serveAll createTodo s calls =
          some (recs.map (fun t => some ⟨201, .todo t⟩),
            ⟨s.todos ++ recs, s.currentId + calls.length⟩) ∧
        recs.map Todo.Id = List.range' (s.currentId + 1) calls.length := by
  induction calls with
  | nil => intro s _ _; exact ⟨[], by simp [serveAll], rfl⟩
  | cons c rest ih =>
    intro s hdec hlen
    obtain ⟨now, r⟩ := c
    simp only [List.length_cons] at hlen
    obtain ⟨d, hd⟩ := Option.isSome_iff_exists.mp (hdec (now, r) (by simp))
    obtain ⟨rec, hrec, hid, -⟩ := createTodo_decoded now s r d hd
    have hmod : (s.currentId + 1) % 2 ^ 64 = s.currentId + 1 := Nat.mod_eq_of_lt (by omega)
    rw [hmod] at hrec hid
    obtain ⟨recs, hrun, hids⟩ := ih ⟨s.todos ++ [rec], s.currentId + 1⟩
      (fun c hc => hdec c (by simp [hc])) (by simp only; omega)
    refine ⟨rec :: recs, ?_, ?_⟩
    · simp only [serveAll, hrec, hrun, List.map_cons, List.append_assoc, List.singleton_append,
        List.length_cons]
      congr 3
      omega
    · simp only [List.map_cons, hid, hids, List.length_cons, List.range'_succ]

/-- C1. Creates with decodable bodies handled one after another from the empty
store, fewer than 2^64 of them: every one answers 201 with its record, the k-th
record has id k, and the stored ids, in collection order, are strictly
increasing and pairwise distinct. -/
theorem sequential_ids (calls : List (Clock × Request))
    (hdec : ∀ c ∈ calls, c.2.Body.isSome = true) (hlen : calls.length < 2 ^ 64) :
    ∃ recs : List Todo,
      serveAll createTodo Store.empty calls =
        some (recs.map (fun t => some ⟨201, .todo t⟩), ⟨recs, calls.length⟩) ∧
      recs.length = calls.length ∧
      (∀ k, (h : k < recs.length) → (recs.get ⟨k, h⟩).Id = k + 1) ∧
      (recs.map Todo.Id).Pairwise (· < ·) ∧ (recs.map Todo.Id).Nodup := by
  obtain ⟨recs, hrun, hids⟩ := serveAll_create calls Store.empty hdec
    (by simpa [Store.empty] using hlen)
  simp only [Store.empty, List.nil_append, Nat.zero_add] at hrun hids
  have hlenr : recs.length = calls.length := by
    have := congrArg List.length hids
    simpa using this
  refine ⟨recs, hrun, hlenr, ?_, ?_, ?_⟩
  · intro k hk
    have h1 : (recs.map Todo.Id)[k]? = (List.range' 1 calls.length)[k]? := by rw [hids]
    rw [List.getElem?_map, List.getElem?_eq_getElem hk, List.getElem?_range' 1 1 (show k < calls.length by omega)] at h1
    simp only [Option.map_some', Option.some.injEq] at h1
    simp only [List.get_eq_getElem]
    omega
  · rw [hids]; exact List.pairwise_lt_range' 1 calls.length
  · rw [hids]; exact List.nodup_range' 1 calls.length

/-- Witness for C1: three creates in a row get the ids 1, 2, 3. -/
theorem sequential_ids_witness :
    ∃ recs : List Todo,
      serveAll createTodo Store.empty threeCreates =
        some (recs.map (fun t => some ⟨201, .todo t⟩), ⟨recs, threeCreates.length⟩) ∧
      recs.length = threeCreates.length ∧
      (∀ k, (h : k < recs.length) → (recs.get ⟨k, h⟩).Id = k + 1) ∧
      (recs.map Todo.Id).Pairwise (· < ·) ∧ (recs.map Todo.Id).Nodup :=
  sequential_ids threeCreates (by decide) (by decide)

/-- C2. A create whose body decodes answers 201; the record in the response is the
record appended to the store, and its `IsComplete` is false whatever the body
said. -/
theorem create_forces_incomplete (now : Clock) (s : Store) (r : Request) (decoded : Todo)
    (h : r.Body = some decoded) :
    ∃ (rec : Todo) (s' : Store),
      createTodo now s r = .returned (some ⟨201, .todo rec⟩) s' ∧
      s'.todos = s.todos ++ [rec] ∧ rec.IsComplete = false := by
  obtain ⟨rec, hrec, -, hic, -⟩ := createTodo_decoded now s r decoded h
  exact ⟨rec, _, hrec, rfl, hic⟩

/-- Witness for C2: a body that sets `isComplete` to true. -/
theorem create_forces_incomplete_witness :
    ∃ (rec : Todo) (s' : Store),
      createTodo ⟨10, 11⟩ Store.empty
          ⟨"POST", "/api/v1/todos", some ⟨0, 0, 0, "a", "b", true, 0⟩⟩ =
        .returned (some ⟨201, .todo rec⟩) s' ∧
      s'.todos = Store.empty.todos ++ [rec] ∧ rec.IsComplete = false :=
  create_forces_incomplete ⟨10, 11⟩ Store.empty
    ⟨"POST", "/api/v1/todos", some ⟨0, 0, 0, "a", "b", true, 0⟩⟩ ⟨0, 0, 0, "a", "b", true, 0⟩ rfl

/-- C5 (the code at the failing input). A create whose body does not decode ends
the process at `log.Fatalf`: no status is written and no store is left, in any
state and however the request was routed. -/
theorem undecodable_body_exits :
    (∀ (now : Clock) (s : Store) (method path : String),
      createTodo now s ⟨method, path, none⟩ = .exit) ∧
    ServeHTTP ⟨10, 11⟩ Store.empty ⟨"POST", "/api/v1/todos", none⟩ = .exit :=
  ⟨fun _ _ _ _ => rfl, by decide⟩

/-- C7. `listTodos` answers 200 with exactly the stored records in their order and
leaves the store as it was; a create whose body decodes appends exactly one
record after the existing ones; and after creates A then B on the empty store
the list is exactly `[A, B]`. -/
theorem list_reflects_creates :
    (∀ (s : Store) (r : Request),
      listTodos s r = .returned (some ⟨200, .todos s.todos⟩) s) ∧
    (∀ (now : Clock) (s : Store) (r : Request), r.Body.isSome = true →
      ∃ rec : Todo, ∃ s' : Store,
        createTodo now s r = .returned (some ⟨201, .todo rec⟩) s' ∧
        s'.todos = s.todos ++ [rec] ∧ s'.todos.length = s.todos.length + 1) ∧
    (∀ (now₁ now₂ : Clock) (r₁ r₂ rl : Request),
      r₁.Body.isSome = true → r₂.Body.isSome = true →
      ∃ (A B : Todo) (s₁ s₂ : Store),
        createTodo now₁ Store.empty r₁ = .returned (some ⟨201, .todo A⟩) s₁ ∧
        createTodo now₂ s₁ r₂ = .returned (some ⟨201, .todo B⟩) s₂ ∧
        listTodos s₂ rl = .returned (some ⟨200, .todos [A, B]⟩) s₂) := by
  refine ⟨fun _ _ => rfl, ?_, ?_⟩
  · intro now s r h
    obtain ⟨d, hd⟩ := Option.isSome_iff_exists.mp h
    obtain ⟨rec, hrec, -⟩ := createTodo_decoded now s r d hd
    exact ⟨rec, _, hrec, rfl, by simp⟩
  · intro now₁ now₂ r₁ r₂ rl h₁ h₂
    obtain ⟨d₁, hd₁⟩ := Option.isSome_iff_exists.mp h₁
    obtain ⟨d₂, hd₂⟩ := Option.isSome_iff_exists.mp h₂
    obtain ⟨A, hA, -⟩ := createTodo_decoded now₁ Store.empty r₁ d₁ hd₁
    obtain ⟨B, hB, -⟩ := createTodo_decoded now₂ _ r₂ d₂ hd₂
    exact ⟨A, B, _, _, hA, hB, rfl⟩

/-- Witness for C7: two creates on the empty store, then a list. -/
theorem list_reflects_creates_witness :
    ∃ (A B : Todo) (s₁ s₂ : Store),
      createTodo ⟨10, 11⟩ Store.empty ⟨"POST", "/api/v1/todos", some ⟨0, 0, 0, "a", "b", true, 9⟩⟩ =
        .returned (some ⟨201, .todo A⟩) s₁ ∧
      createTodo ⟨20, 21⟩ s₁ ⟨"POST", "/api/v1/todos", some ⟨0, 0, 0, "c", "d", false, 0⟩⟩ =
        .returned (some ⟨201, .todo B⟩) s₂ ∧
      listTodos s₂ ⟨"GET", "/api/v1/todos", none⟩ = .returned (some ⟨200, .todos [A, B]⟩) s₂ :=
  list_reflects_creates.2.2 ⟨10, 11⟩ ⟨20, 21⟩
    ⟨"POST", "/api/v1/todos", some ⟨0, 0, 0, "a", "b", true, 9⟩⟩
    ⟨"POST", "/api/v1/todos", some ⟨0, 0, 0, "c", "d", false, 0⟩⟩
    ⟨"GET", "/api/v1/todos", none⟩ rfl rfl

/-! ## Routing -/

theorem slash_not_digit : '/' ∉ decimalDigits := by decide

theorem isTodosPath_ne_healthz (path : String) (h : IsTodosPath path) : path ≠ "/healthz" := by
  rintro rfl
  obtain ⟨n, hn⟩ := h
  have e₁ : "/healthz".data = '/' :: 'h' :: "ealthz".data := rfl
  have e₂ : "/api/v1/todos".data = '/' :: 'a' :: "pi/v1/todos".data := rfl
  rw [e₁, e₂] at hn
  simp at hn

theorem isTodosIdPath_ne_healthz (path : String) (h : IsTodosIdPath path) :
    path ≠ "/healthz" := by
  rintro rfl
  obtain ⟨ds, n, -, -, hn⟩ := h
  have e₁ : "/healthz".data = '/' :: 'h' :: "ealthz".data := rfl
  have e₂ : "/api/v1/todos/".data = '/' :: 'a' :: "pi/v1/todos/".data := rfl
  rw [e₁, e₂] at hn
  simp at hn

theorem isTodosIdPath_not_isTodosPath (path : String) (h : IsTodosIdPath path) :
    ¬ IsTodosPath path := by
  rintro ⟨m, hm⟩
  obtain ⟨ds, n, hne, hds, hn⟩ := h
  obtain ⟨c, cs, rfl⟩ := List.exists_cons_of_ne_nil hne
  rw [hm] at hn
  have h1 : List.replicate m '/' = '/' :: c :: (cs ++ List.replicate n '/') := by
    have : "/api/v1/todos/".data = "/api/v1/todos".data ++ ['/'] := by decide
    rw [this] at hn
    simpa using hn
  have hc : c ∈ List.replicate m '/' := by rw [h1]; simp
  have : c = '/' := List.eq_of_mem_replicate hc
  exact slash_not_digit (this ▸ hds c (by simp))

theorem ServeHTTP_todosPath (now : Clock) (s : Store) (r : Request) (h : IsTodosPath r.Path) :
    ServeHTTP now s r =
      if r.Method = "GET" then listTodos s r
      else if r.Method = "POST" then createTodo now s r
      else .returned none s := by
  simp only [ServeHTTP, if_neg (isTodosPath_ne_healthz _ h), (todosPath_match_iff _).mpr h,
    if_true]

theorem ServeHTTP_todosIdPath (now : Clock) (s : Store) (r : Request)
    (h : IsTodosIdPath r.Path) :
    ServeHTTP now s r = if r.Method = "GET" then getTodoById s r else .returned none s := by
  have h1 : MatchString todosPath r.Path = false := by
    rw [Bool.eq_false_iff]
    exact fun hm => isTodosIdPath_not_isTodosPath _ h ((todosPath_match_iff _).mp hm)
  simp only [ServeHTTP, if_neg (isTodosIdPath_ne_healthz _ h), h1, (todosIdPath_match_iff _).mpr h,
    if_true, Bool.false_eq_true, if_false]

theorem ServeHTTP_fallback (now : Clock) (s : Store) (r : Request)
    (h₁ : r.Path ≠ "/healthz") (h₂ : ¬ IsTodosPath r.Path) (h₃ : ¬ IsTodosIdPath r.Path) :
    ServeHTTP now s r = .returned (some ⟨404, .empty⟩) s := by
  have m₂ : MatchString todosPath r.Path = false := by
    rw [Bool.eq_false_iff]; exact fun hm => h₂ ((todosPath_match_iff _).mp hm)
  have m₃ : MatchString todosIdPath r.Path = false := by
    rw [Bool.eq_false_iff]; exact fun hm => h₃ ((todosIdPath_match_iff _).mp hm)
  simp [ServeHTTP, h₁, m₂, m₃, error404, StatusNotFound]

theorem itemPath_isTodosIdPath (k n : Nat) : IsTodosIdPath (itemPath k n) :=
  ⟨decimal k, n, (decimal_spec k).1, (decimal_spec k).2.1, rfl⟩

theorem slash_not_mem_decimal (k : Nat) : '/' ∉ decimal k :=
  fun h => slash_not_digit ((decimal_spec k).2.1 _ h)

/-- With a slash at the end of the path `getTodoById` ends the process. -/
theorem getTodoById_trailing_slash (s : Store) (r : Request) (pre : List Char)
    (h : r.Path.data = pre ++ ['/']) : getTodoById s r = .exit := by
  simp only [getTodoById, h, Split_last_slash, Atoi_nil]

/-- What `getTodoById` does when the path ends in `/<decimal k>`. -/
theorem getTodoById_decimal (s : Store) (r : Request) (pre : List Char) (k : Nat)
    (h : r.Path.data = pre ++ '/' :: decimal k) :
    getTodoById s r =
      if k < 2 ^ 63 then
        match s.todos.find? (fun todo => todo.Id == k) with
        | some todo => .returned (some ⟨200, .todo todo⟩) s
        | none => .returned (some ⟨404, .empty⟩) s
      else .exit := by
  by_cases hk : k < 2 ^ 63
  · simp only [getTodoById, h, Split_last _ _ (slash_not_mem_decimal k), Atoi_decimal k hk,
      uint64_natCast k (by omega), if_pos hk, StatusOK, StatusNotFound]
  · simp only [getTodoById, h, Split_last _ _ (slash_not_mem_decimal k),
      Atoi_decimal_big k (by omega), if_neg hk]

theorem itemPath_zero_data (k : Nat) :
    (itemPath k 0).data = "/api/v1/todos".data ++ '/' :: decimal k := by
  simp [itemPath]

theorem itemPath_succ_data (k n : Nat) :
    (itemPath k (n + 1)).data =
      ("/api/v1/todos/".data ++ decimal k ++ List.replicate n '/') ++ ['/'] := by
  simp [itemPath, List.replicate_succ']

/-! ## Trailing slashes, the not-found boundary, the fallback and unhandled methods -/

/-- C4 (the code at the failing input). The router does send
`/api/v1/todos/<k>` followed by one or more slashes to `getTodoById`, and
there the process ends at `log.Fatalf`, whatever the store holds: the piece
after the last slash is empty and `strconv.Atoi` rejects it.  With the record
of id 1 stored, `/api/v1/todos/1/` ends the process while `/api/v1/todos/1`
answers 200 with the record. -/
theorem trailing_slash_exits :
    (∀ (now : Clock) (s : Store) (k n : Nat) (body : Option Todo),
      ServeHTTP now s ⟨"GET", itemPath k (n + 1), body⟩ = .exit) ∧
    ServeHTTP ⟨20, 21⟩ oneRecord ⟨"GET", "/api/v1/todos/1/", none⟩ = .exit ∧
    ServeHTTP ⟨20, 21⟩ oneRecord ⟨"GET", "/api/v1/todos/1", none⟩ =
      .returned (some ⟨200, .todo ⟨10, 11, 0, "a", "b", false, 1⟩⟩) oneRecord := by
  refine ⟨?_, by decide, by decide⟩
  intro now s k n body
  rw [ServeHTTP_todosIdPath now s _ (itemPath_isTodosIdPath k (n + 1)), if_pos rfl]
  exact getTodoById_trailing_slash s _ _ (itemPath_succ_data k n)

/-- C8 (as stated, refuted). On the empty store no record carries the id 2^63,
yet get-by-id for `/api/v1/todos/9223372036854775808` does not answer 404: the
process ends, directly and through the router. -/
theorem not_found_refuted_at_two_pow_63 :
    (∀ t ∈ Store.empty.todos, t.Id ≠ 2 ^ 63) ∧
    getTodoById Store.empty ⟨"GET", "/api/v1/todos/9223372036854775808", none⟩ = .exit ∧
    ServeHTTP ⟨0, 0⟩ Store.empty ⟨"GET", "/api/v1/todos/9223372036854775808", none⟩ = .exit :=
  ⟨by simp [Store.empty], by decide, by decide⟩

/-- C8 (amended). For every store, every id `k` below 2^63 and every path whose
last piece is the decimal text of `k`: if no stored record carries `k`,
get-by-id answers 404 with an empty body and leaves the store as it was; and
whenever it answers 200, the body is a stored record whose id is `k`. -/
theorem not_found_boundary (s : Store) (method : String) (pre : List Char) (k : Nat)
    (body : Option Todo) (hk : k < 2 ^ 63) :
    ((∀ t ∈ s.todos, t.Id ≠ k) →
      getTodoById s ⟨method, ⟨pre ++ '/' :: decimal k⟩, body⟩ =
        .returned (some ⟨404, .empty⟩) s) ∧
    (∀ (resp : Response) (s' : Store),
      getTodoById s ⟨method, ⟨pre ++ '/' :: decimal k⟩, body⟩ = .returned (some resp) s' →
      resp.Code = 200 → ∃ t ∈ s.todos, t.Id = k ∧ resp.Body = .todo t) := by
  have hget := getTodoById_decimal s ⟨method, ⟨pre ++ '/' :: decimal k⟩, body⟩ pre k rfl
  rw [if_pos hk] at hget
  constructor
  · intro habs
    have hnone : s.todos.find? (fun todo => todo.Id == k) = none := by
      rw [List.find?_eq_none]
      intro t ht
      simpa using habs t ht
    rw [hget, hnone]
  · intro resp s' hresp hcode
    rw [hget] at hresp
    cases hfind : s.todos.find? (fun todo => todo.Id == k) with
    | none =>
      rw [hfind] at hresp
      simp only [Outcome.returned.injEq, Option.some.injEq] at hresp
      rw [← hresp.1] at hcode
      exact absurd hcode (by decide)
    | some t =>
      rw [hfind] at hresp
      simp only [Outcome.returned.injEq, Option.some.injEq] at hresp
      refine ⟨t, List.mem_of_find?_eq_some hfind, ?_, ?_⟩
      · simpa using List.find?_some hfind
      · rw [← hresp.1]

/-- Witness for C8: with only the record of id 1 stored, id 2 is answered 404 and
the 200 answer for id 1 carries a stored record. -/
theorem not_found_boundary_witness :
    getTodoById oneRecord ⟨"GET", ⟨"/api/v1/todos".data ++ '/' :: decimal 2⟩, none⟩ =
      .returned (some ⟨404, .empty⟩) oneRecord ∧
    ∃ t ∈ oneRecord.todos, t.Id = 1 ∧
      (⟨200, .todo ⟨10, 11, 0, "a", "b", false, 1⟩⟩ : Response).Body = .todo t :=
  ⟨(not_found_boundary oneRecord "GET" "/api/v1/todos".data 2 none (by decide)).1 (by decide),
    (not_found_boundary oneRecord "GET" "/api/v1/todos".data 1 none (by decide)).2
      ⟨200, .todo ⟨10, 11, 0, "a", "b", false, 1⟩⟩ oneRecord (by decide) rfl⟩

/-- C9. For every method, every path that is not `/healthz`, is not
`/api/v1/todos` followed by slashes and is not `/api/v1/todos/<digits>`
followed by slashes is answered 404 with an empty body, the store unchanged. -/
theorem route_fallback (now : Clock) (s : Store) (r : Request)
    (h₁ : r.Path ≠ "/healthz") (h₂ : ¬ IsTodosPath r.Path) (h₃ : ¬ IsTodosIdPath r.Path) :
    ServeHTTP now s r = .returned (some ⟨404, .empty⟩) s :=
  ServeHTTP_fallback now s r h₁ h₂ h₃

/-- Witness for C9: POST on `/api/v1/todos/x1`. -/
theorem route_fallback_witness :
    ServeHTTP ⟨0, 0⟩ oneRecord ⟨"POST", "/api/v1/todos/x1", none⟩ =
      .returned (some ⟨404, .empty⟩) oneRecord :=
  route_fallback ⟨0, 0⟩ oneRecord ⟨"POST", "/api/v1/todos/x1", none⟩ (by decide)
    (fun h => absurd ((todosPath_match_iff _).mpr h) (by decide))
    (fun h => absurd ((todosIdPath_match_iff _).mpr h) (by decide))

/-- C6 (as stated, refuted). DELETE on `/api/v1/todos`, POST on
`/api/v1/todos/1` and POST on `/healthz`: the router returns without writing a
status code. -/
theorem unhandled_method_writes_nothing :
    ServeHTTP ⟨0, 0⟩ oneRecord ⟨"DELETE", "/api/v1/todos", none⟩ = .returned none oneRecord ∧
    ServeHTTP ⟨0, 0⟩ oneRecord ⟨"POST", "/api/v1/todos/1", none⟩ = .returned none oneRecord ∧
    ServeHTTP ⟨0, 0⟩ oneRecord ⟨"POST", "/healthz", none⟩ = .returned none oneRecord :=
  ⟨by decide, by decide, by decide⟩

/-- C6 (amended). A handled request gets a status code written by the router;
a method with no case on a recognised path gets none, the router returning with
the store unchanged. -/
theorem response_written (now : Clock) (s : Store) (r : Request) :
    (Handled r → ∃ (resp : Response) (s' : Store),
      ServeHTTP now s r = .returned (some resp) s') ∧
    (Unhandled r → ServeHTTP now s r = .returned none s) := by
  constructor
  · rintro (⟨hp, hm⟩ | ⟨hp, hm⟩ | ⟨hp, hm, hb⟩ | ⟨hp, hm, ha⟩ | ⟨h₁, h₂, h₃⟩)
    · exact ⟨⟨StatusOK, .empty⟩, s, by simp [ServeHTTP, hp, hm, healthCheck]⟩
    · exact ⟨_, s, by rw [ServeHTTP_todosPath now s r hp, if_pos hm, listTodos]⟩
    · obtain ⟨d, hd⟩ := Option.isSome_iff_exists.mp hb
      obtain ⟨rec, hrec, -⟩ := createTodo_decoded now s r d hd
      have hg : r.Method ≠ "GET" := by rw [hm]; decide
      exact ⟨_, _, by rw [ServeHTTP_todosPath now s r hp, if_neg hg, if_pos hm, hrec]⟩
    · obtain ⟨id, hid⟩ := Option.isSome_iff_exists.mp ha
      rw [ServeHTTP_todosIdPath now s r hp, if_pos hm]
      simp only [getTodoById, hid]
      split
      · exact ⟨_, s, rfl⟩
      · exact ⟨_, s, rfl⟩
    · exact ⟨_, s, ServeHTTP_fallback now s r h₁ h₂ h₃⟩
  · rintro (⟨hp, hm⟩ | ⟨hp, hg, hpo⟩ | ⟨hp, hm⟩)
    · simp [ServeHTTP, hp, hm]
    · rw [ServeHTTP_todosPath now s r hp, if_neg hg, if_neg hpo]
    · rw [ServeHTTP_todosIdPath now s r hp, if_neg hm]

/-- Witness for C6: GET on `/api/v1/todos/` is answered, DELETE on
`/api/v1/todos//` is not. -/
theorem response_written_witness :
    (∃ (resp : Response) (s' : Store),
      ServeHTTP ⟨0, 0⟩ oneRecord ⟨"GET", "/api/v1/todos/", none⟩ = .returned (some resp) s') ∧
    ServeHTTP ⟨0, 0⟩ oneRecord ⟨"DELETE", "/api/v1/todos//", none⟩ = .returned none oneRecord :=
  ⟨(response_written ⟨0, 0⟩ oneRecord ⟨"GET", "/api/v1/todos/", none⟩).1
      (Or.inr (Or.inl ⟨⟨1, by decide⟩, rfl⟩)),
    (response_written ⟨0, 0⟩ oneRecord ⟨"DELETE", "/api/v1/todos//", none⟩).2
      (Or.inr (Or.inl ⟨⟨2, by decide⟩, by decide, by decide⟩))⟩

/-! ## Get-by-id after a create -/

theorem Sequential_empty : Sequential Store.empty := rfl

theorem ServeHTTP_cases (now : Clock) (s : Store) (r : Request) :
    ServeHTTP now s r = .exit ∨
    (∃ resp, ServeHTTP now s r = .returned resp s ∧ ∀ R, resp ≠ some ⟨201, .todo R⟩) ∨
    (∃ d, r.Body = some d ∧ ServeHTTP now s r = createTodo now s r) := by
  unfold ServeHTTP
  simp only
  split_ifs
  · exact Or.inr (Or.inl ⟨_, rfl, by simp [StatusOK]⟩)
  · exact Or.inr (Or.inl ⟨_, rfl, by simp⟩)
  · exact Or.inr (Or.inl ⟨_, rfl, by simp [StatusOK]⟩)
  · cases hb : r.Body with
    | none => exact Or.inl (by simp [createTodo, hb])
    | some d => exact Or.inr (Or.inr ⟨d, rfl, rfl⟩)
  · exact Or.inr (Or.inl ⟨_, rfl, by simp⟩)
  · unfold getTodoById
    simp only
    split
    · exact Or.inl rfl
    · split
      · exact Or.inr (Or.inl ⟨_, rfl, by simp [StatusOK]⟩)
      · exact Or.inr (Or.inl ⟨_, rfl, by simp⟩)
  · exact Or.inr (Or.inl ⟨_, rfl, by simp⟩)
  · exact Or.inr (Or.inl ⟨_, rfl, by simp [error404]⟩)

theorem ServeHTTP_step (now : Clock) (s s' : Store) (r : Request) (resp : Option Response)
    (hseq : Sequential s) (hlt : s.currentId + 1 < 2 ^ 64)
    (h : ServeHTTP now s r = .returned resp s') :
    Sequential s' ∧ s'.currentId ≤ s.currentId + 1 ∧ (∃ more, s'.todos = s.todos ++ more) ∧
      ∀ R, resp = some ⟨201, .todo R⟩ → R ∈ s'.todos := by
  rcases ServeHTTP_cases now s r with he | ⟨resp', hr, hne⟩ | ⟨d, hd, hc⟩
  · rw [he] at h; cases h
  · rw [hr] at h
    simp only [Outcome.returned.injEq] at h
    obtain ⟨rfl, rfl⟩ := h
    exact ⟨hseq, by omega, ⟨[], by simp⟩, fun R hR => absurd hR (hne R)⟩
  · obtain ⟨rec, hrec, hid, -⟩ := createTodo_decoded now s r d hd
    rw [hc, hrec] at h
    simp only [Outcome.returned.injEq] at h
    obtain ⟨rfl, rfl⟩ := h
    have hmod : (s.currentId + 1) % 2 ^ 64 = s.currentId + 1 := Nat.mod_eq_of_lt hlt
    refine ⟨?_, by simp only [hmod]; omega, ⟨[rec], rfl⟩, ?_⟩
    · simp only [Sequential, List.map_append, List.map_cons, List.map_nil, hmod, hid]
      rw [hseq, List.range'_1_concat]
      simp [Nat.add_comm]
    · intro R hR
      simp only [Option.some.injEq, Response.mk.injEq, Payload.todo.injEq] at hR
      simp [hR.2]

theorem Sequential_length (s : Store) (h : Sequential s) : s.todos.length = s.currentId := by
  have := congrArg List.length h
  simpa using this

theorem ServeHTTP_grows (now : Clock) (s s' : Store) (r : Request) (resp : Option Response)
    (h : ServeHTTP now s r = .returned resp s') : ∃ more, s'.todos = s.todos ++ more := by
  rcases ServeHTTP_cases now s r with he | ⟨resp', hr, -⟩ | ⟨d, hd, hc⟩
  · rw [he] at h; cases h
  · rw [hr] at h
    simp only [Outcome.returned.injEq] at h
    exact ⟨[], by simp [h.2]⟩
  · obtain ⟨rec, hrec, -⟩ := createTodo_decoded now s r d hd
    rw [hc, hrec] at h
    simp only [Outcome.returned.injEq] at h
    exact ⟨[rec], by rw [← h.2]⟩

theorem serveAll_grows (calls : List (Clock × Request)) :
    ∀ (s s' : Store) (resps : List (Option Response)),
      serveAll ServeHTTP s calls = some (resps, s') → ∃ more, s'.todos = s.todos ++ more := by
  induction calls with
  | nil =>
    intro s s' resps h
    simp only [serveAll, Option.some.injEq, Prod.mk.injEq] at h
    exact ⟨[], by simp [h.2]⟩
  | cons c rest ih =>
    intro s s' resps h
    obtain ⟨now, r⟩ := c
    simp only [serveAll] at h
    cases hstep : ServeHTTP now s r with
    | exit => rw [hstep] at h; cases h
    | returned resp s₁ =>
      rw [hstep] at h
      simp only at h
      obtain ⟨more₁, hmore₁⟩ := ServeHTTP_grows now s s₁ r resp hstep
      cases hrest : serveAll ServeHTTP s₁ rest with
      | none => rw [hrest] at h; cases h
      | some p =>
        obtain ⟨resps', s₂⟩ := p
        rw [hrest] at h
        simp only [Option.some.injEq, Prod.mk.injEq] at h
        obtain ⟨-, rfl⟩ := h
        obtain ⟨more₂, hmore₂⟩ := ih s₁ s₂ resps' hrest
        exact ⟨more₁ ++ more₂, by rw [hmore₂, hmore₁, List.append_assoc]⟩

/-- A run that ends in a store of fewer than 2^63 records never wrapped the
counter: the ids stay `1, 2, ..., currentId`, however many requests it took. -/
theorem serveAll_sequential (calls : List (Clock × Request)) :
    ∀ (s s' : Store) (resps : List (Option Response)), Sequential s →
      serveAll ServeHTTP s calls = some (resps, s') → s'.todos.length < 2 ^ 63 →
      Sequential s' := by
  induction calls with
  | nil =>
    intro s s' resps hseq h _
    simp only [serveAll, Option.some.injEq, Prod.mk.injEq] at h
    obtain ⟨-, rfl⟩ := h
    exact hseq
  | cons c rest ih =>
    intro s s' resps hseq h hfit
    obtain ⟨more, hmore⟩ := serveAll_grows _ s s' resps h
    have hlen : s.todos.length ≤ s'.todos.length := by
      rw [hmore, List.length_append]; omega
    have hcur := Sequential_length s hseq
    obtain ⟨now, r⟩ := c
    simp only [serveAll] at h
    cases hstep : ServeHTTP now s r with
    | exit => rw [hstep] at h; cases h
    | returned resp s₁ =>
      rw [hstep] at h
      simp only at h
      obtain ⟨hseq₁, -⟩ := ServeHTTP_step now s s₁ r resp hseq (by omega) hstep
      cases hrest : serveAll ServeHTTP s₁ rest with
      | none => rw [hrest] at h; cases h
      | some p =>
        obtain ⟨resps', s₂⟩ := p
        rw [hrest] at h
        simp only [Option.some.injEq, Prod.mk.injEq] at h
        obtain ⟨-, rfl⟩ := h
        exact ih s₁ s₂ resps' hseq₁ hrest hfit

theorem find?_of_nodup_map {α β : Type} [DecidableEq β] (f : α → β) (l : List α) (a : α)
    (hnd : (l.map f).Nodup) (ha : a ∈ l) : l.find? (fun t => f t == f a) = some a := by
  induction l with
  | nil => cases ha
  | cons b bs ih =>
    rw [List.map_cons, List.nodup_cons] at hnd
    rcases List.mem_cons.mp ha with rfl | hmem
    · simp
    · have hne : f b ≠ f a := fun e => hnd.1 (e ▸ List.mem_map_of_mem f hmem)
      rw [List.find?_cons_of_neg _ (by simpa using hne)]
      exact ih hnd.2 hmem

theorem Sequential_lookup (s : Store) (R : Todo) (hseq : Sequential s) (hR : R ∈ s.todos) :
    R.Id ≤ s.currentId ∧ s.todos.find? (fun todo => todo.Id == R.Id) = some R := by
  constructor
  · have : R.Id ∈ List.range' 1 s.currentId := hseq ▸ List.mem_map_of_mem Todo.Id hR
    rw [List.mem_range'_1] at this
    omega
  · apply find?_of_nodup_map Todo.Id s.todos R _ hR
    rw [hseq]
    exact List.nodup_range' 1 s.currentId

/-- C3. In any store reached by requests handled one after another from the
empty store, a record R returned by a create (status 201) is what every later
GET of `/api/v1/todos/<R.Id>` answers, with status 200 and the store untouched.
The store is one the process can hold: `len(todos)` is a Go `int`, so the slice
has fewer than 2^63 records.  The number of requests is not bounded. -/
theorem get_by_id_round_trip (pre post : List (Clock × Request)) (now : Clock) (r : Request)
    (R : Todo) (s₁ s₂ s₃ : Store) (resps₁ resps₃ : List (Option Response))
    (now' : Clock) (body' : Option Todo)
    (h₁ : serveAll ServeHTTP Store.empty pre = some (resps₁, s₁))
    (hc : ServeHTTP now s₁ r = .returned (some ⟨201, .todo R⟩) s₂)
    (h₃ : serveAll ServeHTTP s₂ post = some (resps₃, s₃))
    (hfit : s₃.todos.length < 2 ^ 63) :
    ServeHTTP now' s₃ ⟨"GET", itemPath R.Id 0, body'⟩ =
      .returned (some ⟨200, .todo R⟩) s₃ := by
  obtain ⟨more₃, hmore₃⟩ := serveAll_grows post s₂ s₃ resps₃ h₃
  obtain ⟨more₂, hmore₂⟩ := ServeHTTP_grows now s₁ s₂ r _ hc
  have hlen₂ : s₂.todos.length ≤ s₃.todos.length := by
    rw [hmore₃, List.length_append]; omega
  have hlen₁ : s₁.todos.length ≤ s₂.todos.length := by
    rw [hmore₂, List.length_append]; omega
  have hseq₁ : Sequential s₁ :=
    serveAll_sequential pre Store.empty s₁ resps₁ Sequential_empty h₁ (by omega)
  have hcur₁ := Sequential_length s₁ hseq₁
  obtain ⟨hseq₂, -, -, hmem₂⟩ := ServeHTTP_step now s₁ s₂ r _ hseq₁ (by omega) hc
  have hseq₃ : Sequential s₃ := serveAll_sequential post s₂ s₃ resps₃ hseq₂ h₃ hfit
  have hcur₃ := Sequential_length s₃ hseq₃
  have hR : R ∈ s₃.todos := by rw [hmore₃]; exact List.mem_append_left _ (hmem₂ R rfl)
  obtain ⟨hid, hfind⟩ := Sequential_lookup s₃ R hseq₃ hR
  rw [ServeHTTP_todosIdPath now' s₃ _ (itemPath_isTodosIdPath R.Id 0), if_pos rfl,
    getTodoById_decimal s₃ _ _ R.Id (itemPath_zero_data R.Id), if_pos (by omega), hfind]

/-- Witness for C3: a create, a list and a second create on the empty store, then
the GET of the first record's id. -/
theorem get_by_id_round_trip_witness :
    ServeHTTP ⟨40, 41⟩ twoRecords ⟨"GET", itemPath 1 0, none⟩ =
      .returned (some ⟨200, .todo ⟨10, 11, 0, "a", "b", false, 1⟩⟩) twoRecords :=
  get_by_id_round_trip [] laterRequests ⟨10, 11⟩
    ⟨"POST", "/api/v1/todos", some ⟨0, 0, 0, "a", "b", true, 5⟩⟩
    ⟨10, 11, 0, "a", "b", false, 1⟩ Store.empty oneRecord twoRecords []
    [some ⟨200, .todos oneRecord.todos⟩, some ⟨201, .todo ⟨30, 31, 0, "c", "", false, 2⟩⟩]
    ⟨40, 41⟩ none rfl (by decide) (by decide) (by decide)

/-! ## Creates handled concurrently -/

/-- A single call run to its end does what `createTodo` does: same record, same
store. -/
theorem runSchedule_single (now : Clock) (s : Store) (r : Request) (d : Todo)
    (h : r.Body = some d) :
    ∃ rec : Todo,
      (runSchedule ⟨s, [Call.start now d]⟩ [0, 0, 0]).calls = [⟨.done, rec⟩] ∧
      createTodo now s r = .returned (some ⟨201, .todo rec⟩)
        (runSchedule ⟨s, [Call.start now d]⟩ [0, 0, 0]).store := by
  refine ⟨⟨now.first, now.second, d.ExpiresAt, d.Title, d.Description, false,
    (s.currentId + 1) % uint64Size⟩, rfl, ?_⟩
  simp only [createTodo, h]
  rfl

/-- C10 (the code at the failing input). Two creates on the empty store, both
taking the locked increment before either reads the counter back: both read 2,
both calls finish, and the two stored records carry the same id 2.  Run one
after the other, the same two calls get ids 1 and 2. -/
theorem concurrent_creates_share_id :
    (runSchedule twoCreates [0, 1, 0, 1, 0, 1]).store.todos.map Todo.Id = [2, 2] ∧
    (runSchedule twoCreates [0, 1, 0, 1, 0, 1]).calls.map Call.pc = [.done, .done] ∧
    (runSchedule twoCreates [0, 1, 0, 1]).calls.map (fun c => c.todo.Id) = [2, 2] ∧
    (runSchedule twoCreates [0, 0, 0, 1, 1, 1]).store.todos.map Todo.Id = [1, 2] := by
  decide

end GoTodo
